import Mathlib

/-!
# Verification of the trajectory-forecasting engine

Shallow embedding, over the reals, of the probabilistic trajectory
forecasting engine of this repository:

* `src/utils/geo_utils.py` — haversine distance, initial bearing,
  destination-point projection, current drift;
* `src/utils/water_utils.py` and the navigability mask in
  `src/models/prediction.py` — the two `_is_water` predicates;
* `src/models/prediction.py` — `monte_carlo_simulation` (seeding from
  history, per-step stochastic update, pruning, aggregation) and
  `forecast_path`.

Python floats are modelled as real numbers; `math.sin`, `math.atan2`,
`numpy` ufuncs, etc. become the corresponding `Real`/`Complex`
operations, and the float `%` operator becomes `realMod` below.
Random draws (`rng.normal`) are modelled as explicit noise inputs, so
every theorem quantifies over the drawn values.
-/

namespace SubSim

open Real

/-! ## Primitives -/

/-- Embeds `math.radians` / `np.radians`: degrees to radians. -/
noncomputable def rad (x : ℝ) : ℝ := x * Real.pi / 180

/-- Embeds `math.degrees` / `np.degrees`: radians to degrees. -/
noncomputable def deg (x : ℝ) : ℝ := x * 180 / Real.pi

/-- Python's float `%` operator (sign of the divisor, here used only with
positive divisors): `x % y = x - y * floor (x / y)`. -/
noncomputable def realMod (x y : ℝ) : ℝ := x - y * ⌊x / y⌋

/-- Embeds `math.atan2 y x` / `np.arctan2 y x` as the argument of the
complex number `x + y·i` (range `(-π, π]`, `arctan2 0 0 = 0`). -/
noncomputable def arctan2 (y x : ℝ) : ℝ := Complex.arg ((x : ℂ) + (y : ℂ) * Complex.I)

/-! ## Geo primitives (`src/utils/geo_utils.py`) -/

/-- Constant `EARTH_RADIUS_KM` (both `geo_utils.py` and `prediction.py`). -/
def EARTH_RADIUS_KM : ℝ := 6371

/-- Embeds `haversine_distance(lat1, lon1, lat2, lon2)` from `geo_utils.py`:
great-circle distance in km via the haversine formula. -/
noncomputable def haversine_distance (lat1 lon1 lat2 lon2 : ℝ) : ℝ :=
  let phi1 := rad lat1
  let phi2 := rad lat2
  let delta_phi := rad (lat2 - lat1)
  let delta_lambda := rad (lon2 - lon1)
  let a := Real.sin (delta_phi / 2) ^ 2 +
    Real.cos phi1 * Real.cos phi2 * Real.sin (delta_lambda / 2) ^ 2
  let c := 2 * arctan2 (Real.sqrt a) (Real.sqrt (1 - a))
  EARTH_RADIUS_KM * c

/-- Embeds `calculate_bearing(lat1, lon1, lat2, lon2)` from `geo_utils.py`:
initial bearing in degrees, wrapped into `[0, 360)`. -/
noncomputable def calculate_bearing (lat1 lon1 lat2 lon2 : ℝ) : ℝ :=
  let phi1 := rad lat1
  let phi2 := rad lat2
  let delta_lambda := rad (lon2 - lon1)
  let y := Real.sin delta_lambda * Real.cos phi2
  let x := Real.cos phi1 * Real.sin phi2 -
    Real.sin phi1 * Real.cos phi2 * Real.cos delta_lambda
  let bearing_rad := arctan2 y x
  realMod (deg bearing_rad + 360) 360

/-- Embeds `clamp_to_china_coastal(lat, lon)` from `china_coastal_boundary.py`:
"Identity for now", kept as a hook. -/
def clamp_to_china_coastal (lat lon : ℝ) : ℝ × ℝ := (lat, lon)

/-- Embeds `move_point(lat, lon, bearing, distance_km)` from `geo_utils.py`:
destination point along a great circle; longitude wrapped by
`(new_lon + 180) % 360 - 180`, then passed through the (identity)
coastal clamp. -/
noncomputable def move_point (lat lon bearing distance_km : ℝ) : ℝ × ℝ :=
  let lat1 := rad lat
  let lon1 := rad lon
  let bearing_rad := rad bearing
  let frac := distance_km / EARTH_RADIUS_KM
  let lat2 := Real.arcsin (Real.sin lat1 * Real.cos frac +
    Real.cos lat1 * Real.sin frac * Real.cos bearing_rad)
  let lon2 := lon1 + arctan2
    (Real.sin bearing_rad * Real.sin frac * Real.cos lat1)
    (Real.cos frac - Real.sin lat1 * Real.sin lat2)
  let new_lat := deg lat2
  let new_lon := realMod (deg lon2 + 180) 360 - 180
  clamp_to_china_coastal new_lat new_lon

/-- Embeds `calculate_current_drift(lat, lon, month)` from `geo_utils.py`:
deterministic drift vector `(x_drift, y_drift)` in km/h.  The `month`
argument (defaulting to the wall-clock month in the source) is made
explicit.  `lon` is accepted but unused, as in the source. -/
noncomputable def calculate_current_drift (lat _lon : ℝ) (month : ℕ) : ℝ × ℝ :=
  let base_strength : ℝ := 0.15
  let seasonal_factor : ℝ := 0.8 + 0.2 * |Real.cos (2 * Real.pi * ((month : ℝ) - 1) / 12)|
  let lat_factor : ℝ := Real.exp (-((lat - 0) ^ 2) / (2 * 10 ^ 2))
  let high_lat_reduction : ℝ := 1 / (1 + (|lat| / 20) ^ 2)
  let strength := base_strength * seasonal_factor * lat_factor * high_lat_reduction
  let eastward_ratio := Real.exp (-((|lat| - 0) ^ 2) / (2 * 5 ^ 2))
  let x_drift := strength * (0.7 * eastward_ratio + 0.3)
  let y_drift := strength * 0.15 * Real.sign lat
  (x_drift, y_drift)

/-! ## Navigability predicates -/

/-- Embeds `_is_water(lat, lon)` from `src/models/prediction.py` (lines 39–55):
special test box, then South China Sea deep water box, else the negation
of five hard-coded land rectangles (strict comparisons). -/
def is_water_prediction (lat lon : ℝ) : Prop :=
  if 14 ≤ lat ∧ lat ≤ 16 ∧ 109 ≤ lon ∧ lon ≤ 111 then True
  else if 5 ≤ lat ∧ lat ≤ 20 ∧ 109 ≤ lon ∧ lon ≤ 120 then True
  else ¬((100 < lon ∧ lon < 123 ∧ 20 < lat ∧ lat < 45) ∨
         (102 < lon ∧ lon < 110 ∧ 8 < lat ∧ lat < 23) ∨
         (108.5 < lon ∧ lon < 111 ∧ 18 < lat ∧ lat < 20) ∨
         (117 < lon ∧ lon < 127 ∧ 5 < lat ∧ lat < 19) ∨
         (119 < lon ∧ lon < 123 ∧ 21 < lat ∧ lat < 26))

/-- Embeds `_is_water(lat, lon)` from `src/utils/water_utils.py` (lines 6–26):
five hard-coded landmass rectangles (non-strict comparisons), then
`True`. -/
def is_water_utils (lat lon : ℝ) : Prop :=
  if 20 ≤ lat ∧ lat ≤ 45 ∧ 100 ≤ lon ∧ lon ≤ 123 then False
  else if 18 ≤ lat ∧ lat ≤ 20 ∧ 108.5 ≤ lon ∧ lon ≤ 111 then False
  else if 8 ≤ lat ∧ lat ≤ 23 ∧ 102 ≤ lon ∧ lon ≤ 110 then False
  else if 5 ≤ lat ∧ lat ≤ 19 ∧ 117 ≤ lon ∧ lon ≤ 127 then False
  else if 21 ≤ lat ∧ lat ≤ 26 ∧ 119 ≤ lon ∧ lon ≤ 123 then False
  else True

/-- The bounded region of interest of the bathymetry grid in
`src/models/prediction.py` (lines 28–29): `_LON_MIN, _LON_MAX = 90, 140`
and `_LAT_MIN, _LAT_MAX = 5, 45`. -/
def region_of_interest (lat lon : ℝ) : Prop :=
  5 ≤ lat ∧ lat ≤ 45 ∧ 90 ≤ lon ∧ lon ≤ 140

/-! ## History records and seeding (`monte_carlo_simulation`, step 0) -/

/-- One history record as consumed by the engine: a position fix with a
timestamp.  Timestamps are modelled directly in hours (the source stores
`datetime`s and divides the difference by 3600). -/
structure McRec where
  latitude : ℝ
  longitude : ℝ
  /-- timestamp, in hours -/
  timestamp : ℝ

/-- The state seeded from a history by `monte_carlo_simulation`
(`prediction.py` lines 97–104): position from the last fix, elapsed
hours floored at 1.0, speed from the last pair clamped into
`[MIN_SPEED_KNOTS, MAX_SPEED_KNOTS]`, heading from the last pair. -/
structure Seed where
  lat : ℝ
  lon : ℝ
  dt_hr : ℝ
  speed : ℝ
  heading : ℝ

/-- Constant `MIN_SPEED_KNOTS` from `prediction.py`. -/
def MIN_SPEED_KNOTS : ℝ := 5
/-- Constant `MAX_SPEED_KNOTS` from `prediction.py`. -/
def MAX_SPEED_KNOTS : ℝ := 10
/-- Constant `KNOTS_TO_KMH` from `prediction.py`. -/
def KNOTS_TO_KMH : ℝ := 1.852

/-- Seeding step of `monte_carlo_simulation` (lines 97–104): uses only
`history[-1]` and `history[-2]`; `none` when the history has fewer than
two records. -/
noncomputable def seedFromHistory (history : List McRec) : Option Seed :=
  match history.reverse with
  | last :: prev :: _ =>
    let dt_hr := max 1 (last.timestamp - prev.timestamp)
    some
      { lat := last.latitude
        lon := last.longitude
        dt_hr := dt_hr
        speed := max MIN_SPEED_KNOTS (min MAX_SPEED_KNOTS
          (haversine_distance prev.latitude prev.longitude
            last.latitude last.longitude / dt_hr / KNOTS_TO_KMH))
        heading := calculate_bearing prev.latitude prev.longitude
          last.latitude last.longitude }
  | _ => none

/-! ## The per-step stochastic update (`monte_carlo_simulation`, lines 136–178)

The `numpy` loop updates all still-alive trials in parallel; trial
updates are independent, so the loop body is embedded as a per-trial
step function.  The Gaussian draws `rng.normal(0, heading_sigma)` and
`rng.normal(1.0, speed_sigma)` are modelled as explicit inputs
`noise_h` and `noise_s` (a Gaussian of any positive sigma has full
support, so theorems quantify over all drawn values). -/

/-- Per-trial state after one simulation step. -/
structure StepOut where
  lat : ℝ
  lon : ℝ
  hdg : ℝ
  spd : ℝ

/-- The projection part of one loop iteration (`prediction.py` lines
143–164 and the wraps at lines 167–168 *before* the drift terms are
added): perturb and wrap the heading, perturb and clip the speed,
project with the inline spherical formulas, wrap the longitude by
`(λ + 540) % 360 - 180`. -/
noncomputable def mcStepProj (lat lon hdg spd noise_h noise_s step_hours : ℝ) :
    StepOut :=
  let hdg' := realMod (hdg + noise_h) 360
  let spd' := min MAX_SPEED_KNOTS (max MIN_SPEED_KNOTS (spd * noise_s))
  let dist := spd' * KNOTS_TO_KMH * step_hours
  let phi1 := rad lat
  let lam1 := rad lon
  let theta := rad hdg'
  let delta := dist / EARTH_RADIUS_KM
  let phi2 := Real.arcsin (Real.sin phi1 * Real.cos delta +
    Real.cos phi1 * Real.sin delta * Real.cos theta)
  let lam2 := lam1 + arctan2
    (Real.sin theta * Real.sin delta * Real.cos phi1)
    (Real.cos delta - Real.sin phi1 * Real.sin phi2)
  { lat := deg phi2
    lon := realMod (deg lam2 + 540) 360 - 180
    hdg := hdg'
    spd := spd' }

/-- One full iteration of the simulation loop for one alive trial
(`prediction.py` lines 143–168): the projection above, then the drift
offsets `cur_y * step_hours` / `cur_x * step_hours` added to the
already-wrapped coordinates (lines 167–168). -/
noncomputable def mcStep (lat lon hdg spd noise_h noise_s step_hours : ℝ)
    (month : ℕ) : StepOut :=
  let p := mcStepProj lat lon hdg spd noise_h noise_s step_hours
  let cur := calculate_current_drift lat lon month
  { lat := p.lat + cur.2 * step_hours
    lon := p.lon + cur.1 * step_hours
    hdg := p.hdg
    spd := p.spd }

/-- One simulated trial: its positions `(lat, lon)` for steps
`0, 1, …` and, if it was pruned, the step at which it was first marked
dead.  From that step on the source stores `NaN` and excludes the trial
from aggregation, so the embedded path simply stops there. -/
structure Trial where
  path : List (ℝ × ℝ)
  deathStep : Option ℕ

open Classical in
/-- Steps `sIdx, sIdx+1, …` of one trial (`remaining` more steps):
apply `mcStep`, keep the position while `_is_water` accepts it, and
record the first rejected step as the death step. -/
noncomputable def runTrialAux (lat lon hdg spd step_hours : ℝ) (month : ℕ)
    (noiseT : ℕ → ℝ × ℝ) (sIdx : ℕ) :
    (remaining : ℕ) → List (ℝ × ℝ) × Option ℕ
  | 0 => ([], none)
  | remaining + 1 =>
    let eps := noiseT sIdx
    let out := mcStep lat lon hdg spd eps.1 eps.2 step_hours month
    if is_water_prediction out.lat out.lon then
      let rest := runTrialAux out.lat out.lon out.hdg out.spd step_hours month
        noiseT (sIdx + 1) remaining
      ((out.lat, out.lon) :: rest.1, rest.2)
    else ([], some sIdx)

/-- One full trial of `S` steps from the seeded state (the start point
is step 0; the loop runs `s = 1, …, S`). -/
noncomputable def runTrial (lat lon hdg spd step_hours : ℝ) (month : ℕ)
    (noiseT : ℕ → ℝ × ℝ) (S : ℕ) : Trial :=
  let r := runTrialAux lat lon hdg spd step_hours month noiseT 1 S
  { path := (lat, lon) :: r.1, deathStep := r.2 }

/-! ## Aggregation (`monte_carlo_simulation`, lines 180–218) -/

/-- The result dictionary of `monte_carlo_simulation`.  Path points are
`(lon, lat)` pairs, exactly as the source emits `[[lon, lat], …]`. -/
structure McResult where
  central_path : List (ℝ × ℝ)
  left_path : List (ℝ × ℝ)
  right_path : List (ℝ × ℝ)
  forecast_times : List ℝ
  cone_polygon : List (ℝ × ℝ)
  runs_kept : ℕ

/-- The degenerate single-point dictionary returned at `prediction.py`
lines 88–95, 112–119 and 183–190: every path is `[[lon, lat]]`,
`forecast_times` is `[0]` and `runs_kept` is `0`. -/
def degenerateMcResult (lat lon : ℝ) : McResult :=
  { central_path := [(lon, lat)]
    left_path := [(lon, lat)]
    right_path := [(lon, lat)]
    forecast_times := [0]
    cone_polygon := [(lon, lat)]
    runs_kept := 0 }

/-- The keys of every dictionary returned by `monte_carlo_simulation`
(`prediction.py` lines 88–95, 112–119, 183–190 and 211–218). -/
def mcResultKeys : List String :=
  ["central_path", "left_path", "right_path", "forecast_times",
   "cone_polygon", "runs_kept"]

/-- Embeds `np.nanmean` over one step's column of surviving trials: surviving
rows contain no `NaN`, so it is the plain arithmetic mean. -/
noncomputable def mean (xs : List ℝ) : ℝ := xs.sum / xs.length

open Classical in
/-- Embeds `np.nanpercentile(xs, q)` with the default linear interpolation:
sort, take the fractional index `q/100 · (n-1)`, interpolate between
its floor and ceiling neighbours. -/
noncomputable def percentile (q : ℝ) (xs : List ℝ) : ℝ :=
  let s := List.insertionSort (· ≤ ·) xs
  let pos := q / 100 * ((xs.length : ℝ) - 1)
  let lo := (⌊pos⌋).toNat
  let hi := (⌈pos⌉).toNat
  s.getD lo 0 + (pos - ⌊pos⌋) * (s.getD hi 0 - s.getD lo 0)

/-- The trials kept by the aggregation: `lats[valid_mask]`, i.e. the
trials whose mask is still true after the last step. -/
def survivorsOf (trials : List Trial) : List Trial :=
  trials.filter (fun t => t.deathStep.isNone)

open Classical in
/-- Aggregation of the trial batch (`prediction.py` lines 180–218):
if no trial survived, the degenerate single-point dictionary for the
start position; otherwise per-step mean and 5th/95th percentiles over
the *surviving* trials, the cone polygon closed by repeating its first
point when needed, and `forecast_times = [s * step_hours]`. -/
noncomputable def aggregateBatch (start_lat start_lon : ℝ)
    (step_hours S : ℕ) (trials : List Trial) : McResult :=
  let surv := survivorsOf trials
  if surv.length = 0 then degenerateMcResult start_lat start_lon
  else
    let latAt := fun (s : ℕ) => surv.map (fun t => (t.path.getD s (0, 0)).1)
    let lonAt := fun (s : ℕ) => surv.map (fun t => (t.path.getD s (0, 0)).2)
    let central_path := (List.range (S + 1)).map
      (fun s => (mean (lonAt s), mean (latAt s)))
    let left_path := (List.range (S + 1)).map
      (fun s => (percentile 5 (lonAt s), percentile 5 (latAt s)))
    let right_path := (List.range (S + 1)).map
      (fun s => (percentile 95 (lonAt s), percentile 95 (latAt s)))
    let cone0 := right_path ++ left_path.reverse
    let cone := match cone0 with
      | [] => cone0
      | h :: _ => if cone0.getLast? = some h then cone0 else cone0 ++ [h]
    { central_path := central_path
      left_path := left_path
      right_path := right_path
      forecast_times := (List.range (S + 1)).map
        (fun s => ((s * step_hours : ℕ) : ℝ))
      cone_polygon := cone
      runs_kept := surv.length }

open Classical in
/-- The main body of `monte_carlo_simulation` once a concrete
`lat/lon/heading/speed` state is available (`prediction.py` lines
110–218): reject a non-navigable start with the degenerate dictionary,
otherwise run `num_simulations` independent trials for
`S = hours_ahead / step_hours` steps and aggregate them. -/
noncomputable def mcCore (lat lon heading speed : ℝ)
    (hours_ahead step_hours num_simulations : ℕ)
    (noise : ℕ → ℕ → ℝ × ℝ) (month : ℕ) : McResult :=
  if ¬ is_water_prediction lat lon then degenerateMcResult lat lon
  else
    let S := hours_ahead / step_hours
    let trials := (List.range num_simulations).map
      (fun t => runTrial lat lon heading speed (step_hours : ℝ) month (noise t) S)
    aggregateBatch lat lon step_hours S trials

/-- Embeds `monte_carlo_simulation` (`prediction.py` lines 60–218).  The four
direct state parameters default to `None` in the source and are
modelled as `Option ℝ`.  With a history of fewer than two records the
source emits the raw `lat`/`lon` parameters verbatim into the
degenerate dictionary; the `getD 0` default stands in for Python's
`None` there and no theorem relies on that branch's coordinates. -/
noncomputable def monte_carlo_simulation
    (lat0 lon0 heading0 speed0 : Option ℝ) (history : List McRec)
    (hours_ahead step_hours num_simulations : ℕ)
    (noise : ℕ → ℕ → ℝ × ℝ) (month : ℕ) : Except String McResult :=
  match history with
  | [] =>
    match lat0, lon0, heading0, speed0 with
    | some lat, some lon, some heading, some speed =>
      .ok (mcCore lat lon heading speed hours_ahead step_hours
        num_simulations noise month)
    | _, _, _, _ =>
      .error "Must provide either history or all of lat/lon/heading/speed"
  | _ :: _ =>
    match seedFromHistory history with
    | none => .ok (degenerateMcResult (lat0.getD 0) (lon0.getD 0))
    | some seed =>
      .ok (mcCore seed.lat seed.lon seed.heading seed.speed hours_ahead
        step_hours num_simulations noise month)

/-! ## `forecast_path` (`prediction.py` lines 220–351) -/

/-- The dictionary returned by `forecast_path` on its non-empty
branches.  `cone_polygon` is `Option` because the single-point branch
sets it to Python `None`. -/
structure FPResult where
  central_path : List (ℝ × ℝ)
  left_path : List (ℝ × ℝ)
  right_path : List (ℝ × ℝ)
  forecast_times : List ℝ
  cone_polygon : Option (List (ℝ × ℝ))

/-- A `forecast_path` return value: either the empty dictionary `{}`
(the empty-history branch) or a populated dictionary. -/
inductive FPReturn where
  | emptyDict : FPReturn
  | result : FPResult → FPReturn

/-- The forward loop of `forecast_path` (lines 322–338): each step
projects the central point and the two deflected points from the
*central* chain's previous point, then advances the chain.  Returns the
three appended tails in `(central, left, right)` order. -/
noncomputable def fpLoop (bearing_deg bearing_left bearing_right distance : ℝ) :
    (initLat : ℝ) → (initLon : ℝ) → (stepsRemaining : ℕ) →
      List (ℝ × ℝ) × List (ℝ × ℝ) × List (ℝ × ℝ)
  | _, _, 0 => ([], [], [])
  | initLat, initLon, n + 1 =>
    let c := move_point initLat initLon bearing_deg distance
    let l := move_point initLat initLon bearing_left distance
    let r := move_point initLat initLon bearing_right distance
    let rest := fpLoop bearing_deg bearing_left bearing_right distance c.1 c.2 n
    ((c.2, c.1) :: rest.1, (l.2, l.1) :: rest.2.1, (r.2, r.1) :: rest.2.2)

open Classical in
/-- Embeds `forecast_path(history, hours_ahead, step_hours, heading_variation)`
(`prediction.py` lines 220–351).  Raises (modelled as `.error`) only on
non-positive `step_hours` or negative `hours_ahead`; an empty history
yields the empty dictionary `{}` and a single-record history yields a
single-point dictionary whose `cone_polygon` is `None`. -/
noncomputable def forecast_path (history : List McRec)
    (hours_ahead step_hours : ℤ) (heading_variation : ℝ) :
    Except String FPReturn :=
  if step_hours ≤ 0 then .error "step_hours must be positive"
  else if hours_ahead < 0 then .error "hours_ahead must be non-negative"
  else
    match history.reverse with
    | [] => .ok .emptyDict
    | [last] =>
      .ok (.result
        { central_path := [(last.longitude, last.latitude)]
          left_path := [(last.longitude, last.latitude)]
          right_path := [(last.longitude, last.latitude)]
          forecast_times := [0]
          cone_polygon := none })
    | last :: prev :: _ =>
      let lat1 := prev.latitude
      let lon1 := prev.longitude
      let lat2 := last.latitude
      let lon2 := last.longitude
      let td := last.timestamp - prev.timestamp
      let time_diff_hours := if td > 0 then td else 1
      let distance_km := haversine_distance lat1 lon1 lat2 lon2
      let speed_kmh0 := if time_diff_hours > 0 then distance_km / time_diff_hours else 0
      let speed_knots := max MIN_SPEED_KNOTS (min MAX_SPEED_KNOTS
        (speed_kmh0 / KNOTS_TO_KMH))
      let speed_kmh := speed_knots * KNOTS_TO_KMH
      let bearing_deg := calculate_bearing lat1 lon1 lat2 lon2
      let bearing_left := realMod (bearing_deg + heading_variation) 360
      let bearing_right := realMod (bearing_deg - heading_variation + 360) 360
      let steps := max 1 (Int.toNat ⌈(hours_ahead : ℝ) / (step_hours : ℝ)⌉)
      let distance := speed_kmh * (step_hours : ℝ)
      let tails := fpLoop bearing_deg bearing_left bearing_right distance lat2 lon2 steps
      let central_path := (lon2, lat2) :: tails.1
      let left_path := (lon2, lat2) :: tails.2.1
      let right_path := (lon2, lat2) :: tails.2.2
      let cone0 := right_path ++ left_path.reverse
      let cone := match cone0 with
        | [] => cone0
        | h :: _ => if cone0.getLast? = some h then cone0 else cone0 ++ [h]
      .ok (.result
        { central_path := central_path
          left_path := left_path
          right_path := right_path
          forecast_times := (List.range (steps + 1)).map
            (fun s => ((s : ℝ) * (step_hours : ℝ)))
          cone_polygon := some cone })

/-! ## Spec-side reference definitions

These two definitions follow the specification's words (§4.6), not the
source; they exist only to be compared with the aggregation embedded
above. -/

/-- A trial is alive at step `s` when it has not been marked dead at or
before `s`. -/
def aliveAt (t : Trial) (s : ℕ) : Bool :=
  match t.deathStep with
  | none => true
  | some d => decide (s < d)

/-- Stated from the spec (§4.6): the arithmetic mean of the positions of
exactly the trials alive at step `s`, as a `(lon, lat)` pair. -/
noncomputable def specAliveCentroid (trials : List Trial) (s : ℕ) : ℝ × ℝ :=
  let alive := trials.filter (fun t => aliveAt t s)
  (mean (alive.map (fun t => (t.path.getD s (0, 0)).2)),
   mean (alive.map (fun t => (t.path.getD s (0, 0)).1)))

/-! # Theorems -/

/-! ## Lemmas about the primitives -/

theorem deg_rad (x : ℝ) : deg (rad x) = x := by
  have hπ : Real.pi ≠ 0 := Real.pi_ne_zero
  field_simp [deg, rad]

theorem rad_zero : rad 0 = 0 := by simp [rad]

theorem deg_zero : deg 0 = 0 := by simp [deg]

theorem rad_ninety : rad 90 = Real.pi / 2 := by
  unfold rad; ring

theorem realMod_nonneg (x : ℝ) {y : ℝ} (hy : 0 < y) : 0 ≤ realMod x y := by
  unfold realMod
  have h := Int.floor_le (x / y)
  have : y * ⌊x / y⌋ ≤ y * (x / y) := by
    exact mul_le_mul_of_nonneg_left h (le_of_lt hy)
  rw [mul_div_cancel₀ x (ne_of_gt hy)] at this
  linarith

theorem realMod_lt (x : ℝ) {y : ℝ} (hy : 0 < y) : realMod x y < y := by
  unfold realMod
  have h := Int.lt_floor_add_one (x / y)
  have : y * (x / y) < y * (⌊x / y⌋ + 1) := by
    exact mul_lt_mul_of_pos_left h hy
  rw [mul_div_cancel₀ x (ne_of_gt hy)] at this
  linarith [mul_add y (⌊x / y⌋ : ℝ) 1]

theorem realMod_eq_self {x y : ℝ} (hy : 0 < y) (h0 : 0 ≤ x) (h1 : x < y) :
    realMod x y = x := by
  unfold realMod
  have hfloor : ⌊x / y⌋ = 0 := by
    rw [Int.floor_eq_zero_iff]
    constructor
    · positivity
    · rw [div_lt_one hy]; exact h1
  rw [hfloor]; simp

theorem realMod_eq_sub {x y : ℝ} (hy : 0 < y) (h0 : y ≤ x) (h1 : x < 2 * y) :
    realMod x y = x - y := by
  unfold realMod
  have hfloor : ⌊x / y⌋ = 1 := by
    have hle : (1 : ℝ) ≤ x / y := by
      rw [le_div_iff₀ hy]; linarith
    have hlt : x / y < 2 := by
      rw [div_lt_iff₀ hy]; linarith
    apply Int.floor_eq_iff.mpr
    constructor
    · exact_mod_cast hle
    · push_cast; linarith
  rw [hfloor]; simp

theorem arctan2_cos_sin {t : ℝ} (h : t ∈ Set.Ioc (-Real.pi) Real.pi) :
    arctan2 (Real.sin t) (Real.cos t) = t := by
  unfold arctan2
  rw [Complex.ofReal_cos, Complex.ofReal_sin]
  exact Complex.arg_cos_add_sin_mul_I h

theorem arctan2_zero_zero : arctan2 0 0 = 0 := by
  unfold arctan2
  simp

theorem arctan2_zero_one : arctan2 0 1 = 0 := by
  unfold arctan2
  simp

theorem arctan2_cos (y x : ℝ) (h : ¬(x = 0 ∧ y = 0)) :
    Real.cos (arctan2 y x) = x / Real.sqrt (x ^ 2 + y ^ 2) := by
  unfold arctan2
  have hz : ((x : ℂ) + (y : ℂ) * Complex.I) ≠ 0 := by
    intro hc
    apply h
    constructor
    · have := congrArg Complex.re hc
      simpa using this
    · have := congrArg Complex.im hc
      simpa using this
  rw [Complex.cos_arg hz]
  congr 1
  · simp
  · rw [Complex.abs_apply, Complex.normSq_apply]
    simp [pow_two]

theorem arctan2_sin (y x : ℝ) :
    Real.sin (arctan2 y x) = y / Real.sqrt (x ^ 2 + y ^ 2) := by
  unfold arctan2
  rw [Complex.sin_arg]
  congr 1
  · simp
  · rw [Complex.abs_apply, Complex.normSq_apply]
    simp [pow_two]

/-! ## Water-predicate lemmas -/

theorem is_water_prediction_iff (lat lon : ℝ) :
    is_water_prediction lat lon ↔
      ((14 ≤ lat ∧ lat ≤ 16 ∧ 109 ≤ lon ∧ lon ≤ 111) ∨
       (5 ≤ lat ∧ lat ≤ 20 ∧ 109 ≤ lon ∧ lon ≤ 120) ∨
       ¬((100 < lon ∧ lon < 123 ∧ 20 < lat ∧ lat < 45) ∨
         (102 < lon ∧ lon < 110 ∧ 8 < lat ∧ lat < 23) ∨
         (108.5 < lon ∧ lon < 111 ∧ 18 < lat ∧ lat < 20) ∨
         (117 < lon ∧ lon < 127 ∧ 5 < lat ∧ lat < 19) ∨
         (119 < lon ∧ lon < 123 ∧ 21 < lat ∧ lat < 26))) := by
  unfold is_water_prediction
  split_ifs with h1 h2
  · exact iff_of_true trivial (Or.inl h1)
  · exact iff_of_true trivial (Or.inr (Or.inl h2))
  · constructor
    · exact fun h => Or.inr (Or.inr h)
    · intro h
      rcases h with h | h | h
      · exact absurd h h1
      · exact absurd h h2
      · exact h

theorem is_water_utils_iff (lat lon : ℝ) :
    is_water_utils lat lon ↔
      ¬((20 ≤ lat ∧ lat ≤ 45 ∧ 100 ≤ lon ∧ lon ≤ 123) ∨
        (18 ≤ lat ∧ lat ≤ 20 ∧ 108.5 ≤ lon ∧ lon ≤ 111) ∨
        (8 ≤ lat ∧ lat ≤ 23 ∧ 102 ≤ lon ∧ lon ≤ 110) ∨
        (5 ≤ lat ∧ lat ≤ 19 ∧ 117 ≤ lon ∧ lon ≤ 127) ∨
        (21 ≤ lat ∧ lat ≤ 26 ∧ 119 ≤ lon ∧ lon ≤ 123)) := by
  unfold is_water_utils
  split_ifs with h1 h2 h3 h4 h5
  · exact iff_of_false id fun hn => hn (Or.inl h1)
  · exact iff_of_false id fun hn => hn (Or.inr (Or.inl h2))
  · exact iff_of_false id fun hn => hn (Or.inr (Or.inr (Or.inl h3)))
  · exact iff_of_false id fun hn => hn (Or.inr (Or.inr (Or.inr (Or.inl h4))))
  · exact iff_of_false id fun hn => hn (Or.inr (Or.inr (Or.inr (Or.inr h5))))
  · refine iff_of_true trivial ?_
    intro h
    rcases h with h | h | h | h | h
    · exact h1 h
    · exact h2 h
    · exact h3 h
    · exact h4 h
    · exact h5 h

/-! ## C2 — navigability outside the region of interest -/

/-- C2, counterexample: the point `(0, 0)` lies outside the bounded
region of interest, yet both `_is_water` predicates report it as
navigable — the oracle fails open there, not closed. -/
theorem c2_counterexample :
    ¬ region_of_interest 0 0 ∧ is_water_prediction 0 0 ∧ is_water_utils 0 0 := by
  refine ⟨?_, ?_, ?_⟩
  · unfold region_of_interest
    norm_num
  · rw [is_water_prediction_iff]
    right; right
    norm_num
  · rw [is_water_utils_iff]
    norm_num

/-- C2, amended: `_is_water` never consults the region-of-interest
bounds; it fails open.  In particular every point strictly south of the
region of interest (`lat < 5`) is navigable according to both
predicates, whatever its longitude. -/
theorem c2_amended (lat lon : ℝ) (h : lat < 5) :
    is_water_prediction lat lon ∧ is_water_utils lat lon := by
  constructor
  · rw [is_water_prediction_iff]
    right; right
    rintro (⟨-, -, h3, -⟩ | ⟨-, -, h3, -⟩ | ⟨-, -, h3, -⟩ | ⟨-, -, h3, -⟩ | ⟨-, -, h3, -⟩) <;>
      linarith
  · rw [is_water_utils_iff]
    rintro (⟨h1, -⟩ | ⟨h1, -⟩ | ⟨h1, -⟩ | ⟨h1, -⟩ | ⟨h1, -⟩) <;> linarith

/-- C2, witness for the amended theorem at the concrete point `(0, 0)`. -/
theorem c2_amended_witness :
    (0 : ℝ) < 5 ∧ (is_water_prediction 0 0 ∧ is_water_utils 0 0) :=
  ⟨by norm_num, c2_amended 0 0 (by norm_num)⟩

/-! ## C10 — the two `_is_water` predicates -/

/-- C10, counterexample: at `(15, 110)` the predicate in
`prediction.py` answers water (the special test box), while the one in
`water_utils.py` answers land (the Vietnam rectangle): the two
predicates are not extensionally equal. -/
theorem c10_counterexample :
    is_water_prediction 15 110 ∧ ¬ is_water_utils 15 110 := by
  constructor
  · rw [is_water_prediction_iff]
    left
    norm_num
  · rw [is_water_utils_iff]
    intro h
    apply h
    right; right; left
    norm_num

/-- C10, amended: the predicates are not extensionally equal, but the
`water_utils` one is (strictly) stronger: every point it accepts as
water is also accepted by the `prediction.py` predicate. -/
theorem c10_amended (lat lon : ℝ) (h : is_water_utils lat lon) :
    is_water_prediction lat lon := by
  rw [is_water_utils_iff] at h
  rw [is_water_prediction_iff]
  right; right
  rintro (⟨ha, hb, hc, hd⟩ | ⟨ha, hb, hc, hd⟩ | ⟨ha, hb, hc, hd⟩ |
          ⟨ha, hb, hc, hd⟩ | ⟨ha, hb, hc, hd⟩)
  · exact h (Or.inl ⟨le_of_lt hc, le_of_lt hd, le_of_lt ha, le_of_lt hb⟩)
  · exact h (Or.inr (Or.inr (Or.inl ⟨le_of_lt hc, le_of_lt hd, le_of_lt ha, le_of_lt hb⟩)))
  · exact h (Or.inr (Or.inl ⟨le_of_lt hc, le_of_lt hd, le_of_lt ha, le_of_lt hb⟩))
  · exact h (Or.inr (Or.inr (Or.inr (Or.inl ⟨le_of_lt hc, le_of_lt hd, le_of_lt ha, le_of_lt hb⟩))))
  · exact h (Or.inr (Or.inr (Or.inr (Or.inr ⟨le_of_lt hc, le_of_lt hd, le_of_lt ha, le_of_lt hb⟩))))

/-- C10, witness for the amended theorem at the concrete point `(0, 0)`. -/
theorem c10_amended_witness :
    is_water_utils 0 0 ∧ is_water_prediction 0 0 := by
  have h : is_water_utils 0 0 := by
    rw [is_water_utils_iff]
    norm_num
  exact ⟨h, c10_amended 0 0 h⟩

/-! ## C6 — confidence rings -/

/-- C6, counterexample: the dictionary returned by
`monte_carlo_simulation` has no `confidence_rings` key at all. -/
theorem c6_counterexample : "confidence_rings" ∉ mcResultKeys := by
  decide

/-- C6, amended: the simulator's result carries exactly the six keys
`central_path`, `left_path`, `right_path`, `forecast_times`,
`cone_polygon` and `runs_kept`; no `confidence_rings`, `radius_50` or
`radius_90` field is computed anywhere in the result. -/
theorem c6_amended :
    ("central_path" ∈ mcResultKeys ∧ "left_path" ∈ mcResultKeys ∧
     "right_path" ∈ mcResultKeys ∧ "forecast_times" ∈ mcResultKeys ∧
     "cone_polygon" ∈ mcResultKeys ∧ "runs_kept" ∈ mcResultKeys) ∧
    "confidence_rings" ∉ mcResultKeys ∧
    "radius_50" ∉ mcResultKeys ∧ "radius_90" ∉ mcResultKeys := by
  decide

/-! ## C3 — degenerate inputs to `forecast_path` -/

/-- C3, counterexample: on the degenerate-but-valid empty history,
`forecast_path` returns the empty dictionary `{}` — a result with *no*
fields at all, in particular no `cone_polygon` and no kept count. -/
theorem c3_counterexample :
    forecast_path [] 24 1 15 = .ok .emptyDict := by
  unfold forecast_path
  norm_num

/-- C3, amended: degenerate histories never raise, but the result is
not always structurally complete: an empty history yields the empty
dictionary, and a single-record history yields a single-point
dictionary whose `cone_polygon` is `None` (and which carries no kept
count). -/
theorem c3_amended :
    forecast_path [] 24 1 15 = .ok .emptyDict ∧
    ∀ p : McRec, forecast_path [p] 24 1 15 = .ok (.result
      { central_path := [(p.longitude, p.latitude)]
        left_path := [(p.longitude, p.latitude)]
        right_path := [(p.longitude, p.latitude)]
        forecast_times := [0]
        cone_polygon := none }) := by
  constructor
  · unfold forecast_path
    norm_num
  · intro p
    unfold forecast_path
    norm_num

/-! ## Shared evaluation helpers -/

theorem is_water_prediction_origin : is_water_prediction 0 0 := by
  rw [is_water_prediction_iff]
  right; right
  norm_num

theorem haversine_distance_zero : haversine_distance 0 0 0 0 = 0 := by
  simp only [haversine_distance]
  norm_num [rad_zero, arctan2_zero_one]

theorem calculate_bearing_zero : calculate_bearing 0 0 0 0 = 0 := by
  simp only [calculate_bearing]
  norm_num [rad_zero, arctan2_zero_zero, deg_zero]
  rw [realMod_eq_sub (by norm_num) (by norm_num) (by norm_num)]
  norm_num

theorem mean_singleton (x : ℝ) : mean [x] = x := by
  simp [mean]

theorem percentile_singleton (q x : ℝ) : percentile q [x] = x := by
  simp [percentile, List.insertionSort, List.orderedInsert]

theorem runTrial_zero_steps (lat lon hdg spd step_hours : ℝ) (month : ℕ)
    (noiseT : ℕ → ℝ × ℝ) :
    runTrial lat lon hdg spd step_hours month noiseT 0 =
      ⟨[(lat, lon)], none⟩ := by
  simp [runTrial, runTrialAux]

theorem seedFromHistory_append (rest : List McRec) (p q : McRec) :
    seedFromHistory (rest ++ [p, q]) = seedFromHistory [p, q] := by
  unfold seedFromHistory
  rw [List.reverse_append]
  simp

theorem seedFromHistory_pair (p q : McRec) :
    seedFromHistory [p, q] = some
      { lat := q.latitude
        lon := q.longitude
        dt_hr := max 1 (q.timestamp - p.timestamp)
        speed := max MIN_SPEED_KNOTS (min MAX_SPEED_KNOTS
          (haversine_distance p.latitude p.longitude
            q.latitude q.longitude / max 1 (q.timestamp - p.timestamp) / KNOTS_TO_KMH))
        heading := calculate_bearing p.latitude p.longitude
          q.latitude q.longitude } := by
  simp [seedFromHistory]

/-! ## C7 — non-navigable start position -/

/-- C7: when the start position is not navigable,
`monte_carlo_simulation` returns (rather than raising) the degenerate
single-point dictionary: every path is the start position `[[lon, lat]]`
and the kept-trial count (`runs_kept` in the source) is `0`.  Holds for
every choice of the remaining parameters and every noise stream. -/
theorem c7_unnavigable_start (lat lon heading speed : ℝ)
    (hours_ahead step_hours num_simulations : ℕ)
    (noise : ℕ → ℕ → ℝ × ℝ) (month : ℕ)
    (h : ¬ is_water_prediction lat lon) :
    monte_carlo_simulation (some lat) (some lon) (some heading) (some speed)
      [] hours_ahead step_hours num_simulations noise month
      = .ok (degenerateMcResult lat lon) ∧
    (degenerateMcResult lat lon).runs_kept = 0 ∧
    (degenerateMcResult lat lon).central_path = [(lon, lat)] ∧
    (degenerateMcResult lat lon).left_path = [(lon, lat)] ∧
    (degenerateMcResult lat lon).right_path = [(lon, lat)] := by
  refine ⟨?_, rfl, rfl, rfl, rfl⟩
  show (Except.ok (mcCore lat lon heading speed hours_ahead step_hours
    num_simulations noise month) : Except String McResult)
      = .ok (degenerateMcResult lat lon)
  unfold mcCore
  rw [if_pos h]

/-- C7, witness at the concrete non-navigable start `(30, 110)` (inside
the mainland-China rectangle). -/
theorem c7_witness :
    ¬ is_water_prediction 30 110 ∧
    monte_carlo_simulation (some 30) (some 110) (some 0) (some 7)
      [] 24 1 1000 (fun _ _ => (0, 1)) 1
      = .ok (degenerateMcResult 30 110) := by
  have h : ¬ is_water_prediction 30 110 := by
    rw [is_water_prediction_iff]
    norm_num
  exact ⟨h, (c7_unnavigable_start 30 110 0 7 24 1 1000 (fun _ _ => (0, 1)) 1 h).1⟩

theorem monte_carlo_ok_of_cons (lat0 lon0 heading0 speed0 : Option ℝ)
    (a : McRec) (rest : List McRec)
    (hours_ahead step_hours num_simulations : ℕ)
    (noise : ℕ → ℕ → ℝ × ℝ) (month : ℕ) :
    ∃ r : McResult,
      monte_carlo_simulation lat0 lon0 heading0 speed0 (a :: rest)
        hours_ahead step_hours num_simulations noise month = .ok r := by
  simp only [monte_carlo_simulation]
  cases hs : seedFromHistory (a :: rest) with
  | none => exact ⟨_, rfl⟩
  | some seed => exact ⟨_, rfl⟩

/-! ## C8 — non-monotonic history timestamps -/

/-- C8, counterexample: on a history whose timestamps run *backwards*
(5 h then 3 h), `monte_carlo_simulation` does not fail.  The elapsed
time `-2` is silently floored to `1` hour by `max(1.0, …)`, the seeded
speed is clamped to the minimum `5` knots, and the call returns a
normal `ok` dictionary. -/
theorem c8_counterexample :
    ((3 : ℝ) - 5 ≤ 0) ∧
    seedFromHistory [⟨0, 0, 5⟩, ⟨0, 0, 3⟩] =
      some { lat := 0, lon := 0, dt_hr := 1, speed := 5, heading := 0 } ∧
    monte_carlo_simulation none none none none [⟨0, 0, 5⟩, ⟨0, 0, 3⟩]
      0 1 1 (fun _ _ => (0, 1)) 1 =
      .ok { central_path := [(0, 0)], left_path := [(0, 0)],
            right_path := [(0, 0)], forecast_times := [0],
            cone_polygon := [(0, 0), (0, 0)], runs_kept := 1 } := by
  have hseed : seedFromHistory [(⟨0, 0, 5⟩ : McRec), ⟨0, 0, 3⟩] =
      some { lat := 0, lon := 0, dt_hr := 1, speed := 5, heading := 0 } := by
    rw [seedFromHistory_pair]
    norm_num [haversine_distance_zero, calculate_bearing_zero,
      MIN_SPEED_KNOTS, MAX_SPEED_KNOTS, KNOTS_TO_KMH]
  refine ⟨by norm_num, hseed, ?_⟩
  show (match seedFromHistory [(⟨0, 0, 5⟩ : McRec), ⟨0, 0, 3⟩] with
    | none => Except.ok (degenerateMcResult ((none : Option ℝ).getD 0)
        ((none : Option ℝ).getD 0))
    | some seed =>
      Except.ok (mcCore seed.lat seed.lon seed.heading seed.speed 0 1 1
        (fun _ _ => (0, 1)) 1)) = _
  rw [hseed]
  show Except.ok (mcCore 0 0 0 5 0 1 1 (fun _ _ => (0, 1)) 1) = _
  unfold mcCore
  rw [if_neg (not_not_intro is_water_prediction_origin)]
  have htrial : (List.range 1).map
      (fun t => runTrial 0 0 0 5 ((1 : ℕ) : ℝ) 1 ((fun _ _ => ((0 : ℝ), (1 : ℝ))) t) (0 / 1)) =
      [⟨[((0 : ℝ), (0 : ℝ))], none⟩] := by
    simp [runTrial_zero_steps]
  simp only [htrial]
  simp only [aggregateBatch, survivorsOf]
  norm_num [mean_singleton, percentile_singleton, List.range_succ]

/-- C8, amended: a non-monotonic history is *not* rejected at the
estimator/simulator boundary.  The non-positive elapsed time is
silently coerced: `max(1.0, Δt)` makes the seeded `dt_hr` exactly `1`,
and `monte_carlo_simulation` proceeds and returns an `ok` result for
every such history and every choice of the remaining parameters. -/
theorem c8_amended (rest : List McRec) (p q : McRec)
    (lat0 lon0 heading0 speed0 : Option ℝ)
    (hours_ahead step_hours num_simulations : ℕ)
    (noise : ℕ → ℕ → ℝ × ℝ) (month : ℕ)
    (h : q.timestamp - p.timestamp ≤ 0) :
    (seedFromHistory (rest ++ [p, q])).map Seed.dt_hr = some 1 ∧
    ∃ r : McResult,
      monte_carlo_simulation lat0 lon0 heading0 speed0 (rest ++ [p, q])
        hours_ahead step_hours num_simulations noise month = .ok r := by
  constructor
  · rw [seedFromHistory_append, seedFromHistory_pair]
    simp only [Option.map_some']
    have hdt : max 1 (q.timestamp - p.timestamp) = 1 :=
      max_eq_left (by linarith)
    simp [hdt]
  · cases rest with
    | nil =>
      exact monte_carlo_ok_of_cons lat0 lon0 heading0 speed0 p [q]
        hours_ahead step_hours num_simulations noise month
    | cons a as =>
      exact monte_carlo_ok_of_cons lat0 lon0 heading0 speed0 a (as ++ [p, q])
        hours_ahead step_hours num_simulations noise month

/-- C8, witness for the amended theorem on the concrete reversed
history used in the counterexample. -/
theorem c8_amended_witness :
    ((3 : ℝ) - 5 ≤ 0) ∧
    ((seedFromHistory ([] ++ [⟨0, 0, 5⟩, ⟨0, 0, 3⟩])).map Seed.dt_hr = some 1 ∧
     ∃ r : McResult,
       monte_carlo_simulation none none none none ([] ++ [⟨0, 0, 5⟩, ⟨0, 0, 3⟩])
         24 1 1000 (fun _ _ => (0, 1)) 1 = .ok r) :=
  ⟨by norm_num,
   c8_amended [] ⟨0, 0, 5⟩ ⟨0, 0, 3⟩ none none none none 24 1 1000
     (fun _ _ => (0, 1)) 1 (by norm_num)⟩

theorem rad_deg (x : ℝ) : rad (deg x) = x := by
  have hπ : Real.pi ≠ 0 := Real.pi_ne_zero
  field_simp [deg, rad]

theorem arctan2_smul_cos_sin {k t : ℝ} (hk : 0 < k)
    (h : t ∈ Set.Ioc (-Real.pi) Real.pi) :
    arctan2 (k * Real.sin t) (k * Real.cos t) = t := by
  unfold arctan2
  have hz : ((k * Real.cos t : ℝ) : ℂ) + ((k * Real.sin t : ℝ) : ℂ) * Complex.I =
      (k : ℝ) * (((Real.cos t : ℝ) : ℂ) + ((Real.sin t : ℝ) : ℂ) * Complex.I) := by
    push_cast
    ring
  rw [hz, Complex.arg_real_mul _ hk, Complex.ofReal_cos, Complex.ofReal_sin,
    Complex.arg_cos_add_sin_mul_I h]

theorem survivorsOf_idem (trials : List Trial) :
    survivorsOf (survivorsOf trials) = survivorsOf trials := by
  simp [survivorsOf, List.filter_filter]

theorem getD_map_range {α : Type} (f : ℕ → α) (n s : ℕ) (d : α) (h : s < n) :
    ((List.range n).map f).getD s d = f s := by
  rw [List.getD_eq_getElem?_getD]
  simp [List.getElem?_range h]

/-! ## C4 — which trials the central path averages over -/

/-- C4, counterexample: a batch of two trials, the first surviving the
whole run and the second dying at step 2.  The second trial is alive at
step 1 (latitude 10 there), so the spec's alive-at-step centroid for
step 1 is latitude 5; the code's `central_path[1]`, averaging only over
trials alive at the *end*, is latitude 0. -/
theorem c4_counterexample :
    aliveAt ⟨[(0, 0), (10, 0), (0, 0)], some 2⟩ 1 = true ∧
    (aggregateBatch 0 0 1 2
        [⟨[(0, 0), (0, 0), (0, 0)], none⟩,
         ⟨[(0, 0), (10, 0), (0, 0)], some 2⟩]).central_path.getD 1 (99, 99)
      = (0, 0) ∧
    specAliveCentroid
        [⟨[(0, 0), (0, 0), (0, 0)], none⟩,
         ⟨[(0, 0), (10, 0), (0, 0)], some 2⟩] 1 = (0, 5) ∧
    ((0 : ℝ), (0 : ℝ)) ≠ ((0 : ℝ), (5 : ℝ)) := by
  refine ⟨rfl, ?_, ?_, by norm_num [Prod.ext_iff]⟩
  · simp only [aggregateBatch, survivorsOf]
    norm_num [mean, getD_map_range]
  · simp only [specAliveCentroid, aliveAt]
    norm_num [mean]

/-- C4, amended: the aggregation uses only the trials alive at the
final step.  Dropping all non-surviving trials leaves the result
unchanged, and for every step `s ≤ S` the central path at `s` is the
arithmetic mean of the *surviving* trials' positions at `s` — trials
that die at a later step contribute to no step at all. -/
theorem c4_amended (a b : ℝ) (sh S : ℕ) (trials : List Trial) (s : ℕ)
    (hns : survivorsOf trials ≠ []) (hs : s < S + 1) :
    aggregateBatch a b sh S trials = aggregateBatch a b sh S (survivorsOf trials) ∧
    (aggregateBatch a b sh S trials).central_path.getD s (0, 0) =
      (mean ((survivorsOf trials).map (fun t => (t.path.getD s (0, 0)).2)),
       mean ((survivorsOf trials).map (fun t => (t.path.getD s (0, 0)).1))) := by
  constructor
  · unfold aggregateBatch
    rw [survivorsOf_idem]
  · have hlen : ¬(survivorsOf trials).length = 0 := by
      simpa [List.length_eq_zero] using hns
    unfold aggregateBatch
    rw [if_neg hlen]
    simp only []
    rw [getD_map_range _ _ _ _ hs]

/-- C4, witness for the amended theorem on the two-trial batch of the
counterexample, at step 1 of 2. -/
theorem c4_amended_witness :
    (survivorsOf [⟨[(0, 0), (0, 0), (0, 0)], none⟩,
        (⟨[(0, 0), (10, 0), (0, 0)], some 2⟩ : Trial)] ≠ [] ∧ 1 < 2 + 1) ∧
    (aggregateBatch 0 0 1 2
        [⟨[(0, 0), (0, 0), (0, 0)], none⟩, ⟨[(0, 0), (10, 0), (0, 0)], some 2⟩]
      = aggregateBatch 0 0 1 2 (survivorsOf
          [⟨[(0, 0), (0, 0), (0, 0)], none⟩, ⟨[(0, 0), (10, 0), (0, 0)], some 2⟩]) ∧
     (aggregateBatch 0 0 1 2
        [⟨[(0, 0), (0, 0), (0, 0)], none⟩,
         ⟨[(0, 0), (10, 0), (0, 0)], some 2⟩]).central_path.getD 1 (0, 0) =
      (mean ((survivorsOf [⟨[(0, 0), (0, 0), (0, 0)], none⟩,
          (⟨[(0, 0), (10, 0), (0, 0)], some 2⟩ : Trial)]).map
            (fun t => (t.path.getD 1 (0, 0)).2)),
       mean ((survivorsOf [⟨[(0, 0), (0, 0), (0, 0)], none⟩,
          (⟨[(0, 0), (10, 0), (0, 0)], some 2⟩ : Trial)]).map
            (fun t => (t.path.getD 1 (0, 0)).1)))) :=
  ⟨⟨by simp [survivorsOf], by norm_num⟩,
   c4_amended 0 0 1 2
     [⟨[(0, 0), (0, 0), (0, 0)], none⟩, ⟨[(0, 0), (10, 0), (0, 0)], some 2⟩] 1
     (by simp [survivorsOf]) (by norm_num)⟩

theorem calculate_bearing_eval (lat1 lon1 lat2 lon2 k t : ℝ) (hk : 0 < k)
    (ht : t ∈ Set.Ioc (-Real.pi) Real.pi)
    (hy : Real.sin (rad (lon2 - lon1)) * Real.cos (rad lat2) = k * Real.sin t)
    (hx : Real.cos (rad lat1) * Real.sin (rad lat2) -
        Real.sin (rad lat1) * Real.cos (rad lat2) * Real.cos (rad (lon2 - lon1))
      = k * Real.cos t) :
    calculate_bearing lat1 lon1 lat2 lon2 = realMod (deg t + 360) 360 := by
  simp only [calculate_bearing]
  rw [hy, hx, arctan2_smul_cos_sin hk ht]

theorem bearing_pair_350 : calculate_bearing (-90) 10 0 0 = 350 := by
  have hπ := Real.pi_pos
  have ht : -(Real.pi / 18) ∈ Set.Ioc (-Real.pi) Real.pi := by
    constructor <;> [linarith; linarith]
  have h := calculate_bearing_eval (-90) 10 0 0 1 (-(Real.pi / 18)) one_pos ht ?_ ?_
  · rw [h, show -(Real.pi / 18) = rad (-10) by unfold rad; ring, deg_rad]
    rw [show ((-10 : ℝ) + 360) = 350 by norm_num]
    exact realMod_eq_self (by norm_num) (by norm_num) (by norm_num)
  · rw [show ((0 : ℝ) - 10) = -10 by norm_num,
      show rad (-10) = -(Real.pi / 18) by unfold rad; ring, rad_zero]
    simp
  · rw [show ((0 : ℝ) - 10) = -10 by norm_num,
      show rad (-10) = -(Real.pi / 18) by unfold rad; ring, rad_zero,
      show rad (-90) = -(Real.pi / 2) by unfold rad; ring]
    simp

theorem bearing_pair_10 :
    calculate_bearing 0 0 45 (deg (Real.arcsin (Real.tan (Real.pi / 18)))) = 10 := by
  have hπ := Real.pi_pos
  have hcos : 0 < Real.cos (Real.pi / 18) := by
    apply Real.cos_pos_of_mem_Ioo
    constructor <;> [linarith; linarith]
  have htan0 : 0 ≤ Real.tan (Real.pi / 18) := by
    rw [Real.tan_eq_sin_div_cos]
    have hsin : 0 ≤ Real.sin (Real.pi / 18) :=
      Real.sin_nonneg_of_nonneg_of_le_pi (by linarith) (by linarith)
    positivity
  have htan1 : Real.tan (Real.pi / 18) ≤ 1 := by
    have h4 : Real.tan (Real.pi / 18) < Real.tan (Real.pi / 4) := by
      apply Real.tan_lt_tan_of_nonneg_of_lt_pi_div_two (by positivity) (by linarith)
      linarith
    rw [Real.tan_pi_div_four] at h4
    linarith
  have ht : Real.pi / 18 ∈ Set.Ioc (-Real.pi) Real.pi := by
    constructor <;> [linarith; linarith]
  have hk : 0 < Real.sqrt 2 / 2 / Real.cos (Real.pi / 18) := by
    have h2 : (0 : ℝ) < Real.sqrt 2 := Real.sqrt_pos.mpr (by norm_num)
    positivity
  have h := calculate_bearing_eval 0 0 45 (deg (Real.arcsin (Real.tan (Real.pi / 18))))
    (Real.sqrt 2 / 2 / Real.cos (Real.pi / 18)) (Real.pi / 18) hk ht ?_ ?_
  · rw [h, show (Real.pi / 18) = rad 10 by unfold rad; ring, deg_rad]
    rw [show ((10 : ℝ) + 360) = 370 by norm_num]
    rw [realMod_eq_sub (by norm_num) (by norm_num) (by norm_num)]
    norm_num
  · rw [show deg (Real.arcsin (Real.tan (Real.pi / 18))) - 0
        = deg (Real.arcsin (Real.tan (Real.pi / 18))) by ring, rad_deg,
      Real.sin_arcsin (by linarith) htan1,
      show rad 45 = Real.pi / 4 by unfold rad; ring, Real.cos_pi_div_four,
      Real.tan_eq_sin_div_cos]
    field_simp
    ring
  · rw [rad_zero, show rad 45 = Real.pi / 4 by unfold rad; ring,
      Real.sin_pi_div_four]
    field_simp
    ring

/-! ## C5 — bearing aggregation in the motion estimator -/

/-- C5, counterexample: a three-fix history whose consecutive-pair
bearings are exactly 350° and 10°.  The estimator seeds its heading
from the *last pair only* (`calculate_bearing(prev, last)`), so the
estimated heading is 10°, not the circular mean 0°: no circular (or
any) aggregation of bearing samples takes place. -/
theorem c5_counterexample :
    calculate_bearing (-90) 10 0 0 = 350 ∧
    calculate_bearing 0 0 45 (deg (Real.arcsin (Real.tan (Real.pi / 18)))) = 10 ∧
    (seedFromHistory [⟨-90, 10, 0⟩, ⟨0, 0, 1⟩,
        ⟨45, deg (Real.arcsin (Real.tan (Real.pi / 18))), 2⟩]).map Seed.heading
      = some 10 ∧
    (10 : ℝ) ≠ 0 := by
  refine ⟨bearing_pair_350, bearing_pair_10, ?_, by norm_num⟩
  rw [show ([⟨-90, 10, 0⟩, ⟨0, 0, 1⟩,
      ⟨45, deg (Real.arcsin (Real.tan (Real.pi / 18))), 2⟩] : List McRec)
    = [⟨-90, 10, 0⟩] ++ [⟨0, 0, 1⟩,
        ⟨45, deg (Real.arcsin (Real.tan (Real.pi / 18))), 2⟩] from rfl,
    seedFromHistory_append, seedFromHistory_pair]
  simp only [Option.map_some']
  rw [bearing_pair_10]

/-- C5, amended: the motion estimator does not aggregate bearing
samples at all.  The seeded state depends only on the last two history
records, and the seeded heading is exactly the bearing of that last
pair — earlier fixes (and hence all earlier pair bearings) are
ignored. -/
theorem c5_amended (rest rest2 : List McRec) (p q : McRec) :
    seedFromHistory (rest ++ [p, q]) = seedFromHistory (rest2 ++ [p, q]) ∧
    (seedFromHistory (rest ++ [p, q])).map Seed.heading =
      some (calculate_bearing p.latitude p.longitude q.latitude q.longitude) := by
  constructor
  · rw [seedFromHistory_append, seedFromHistory_append]
  · rw [seedFromHistory_append, seedFromHistory_pair]
    rfl

theorem deg_arcsin_bounds (z : ℝ) :
    -90 ≤ deg (Real.arcsin z) ∧ deg (Real.arcsin z) ≤ 90 := by
  have hπ := Real.pi_pos
  have h1 := Real.neg_pi_div_two_le_arcsin z
  have h2 := Real.arcsin_le_pi_div_two z
  have hmono : ∀ a b : ℝ, a ≤ b → deg a ≤ deg b := by
    intro a b h
    unfold deg
    gcongr
  have h90 : deg (Real.pi / 2) = 90 := by
    unfold deg
    field_simp
    ring
  have hn90 : deg (-(Real.pi / 2)) = -90 := by
    have hneg : deg (-(Real.pi / 2)) = -deg (Real.pi / 2) := by
      unfold deg; ring
    rw [hneg, h90]
  constructor
  · calc (-90 : ℝ) = deg (-(Real.pi / 2)) := hn90.symm
    _ ≤ deg (Real.arcsin z) := hmono _ _ h1
  · calc deg (Real.arcsin z) ≤ deg (Real.pi / 2) := hmono _ _ h2
    _ = 90 := h90

theorem wrap_lon_bounds (y : ℝ) :
    -180 ≤ realMod y 360 - 180 ∧ realMod y 360 - 180 < 180 := by
  have h1 := realMod_nonneg y (show (0:ℝ) < 360 by norm_num)
  have h2 := realMod_lt y (show (0:ℝ) < 360 by norm_num)
  constructor <;> linarith

theorem drift_at_equator : calculate_current_drift 0 179.73 1 = (0.15, 0) := by
  unfold calculate_current_drift
  norm_num [Real.sign_zero, Real.exp_zero, Real.cos_zero]

/-! ## C1 — coordinate bounds under drift -/

/-- C1, amended: the *projected* position of every simulation step —
i.e. before the drift offsets of lines 167–168 are added — always
satisfies `-90 ≤ lat ≤ 90` (the `arcsin` image scaled to degrees) and
`-180 ≤ lon < 180` (the `(λ+540) % 360 - 180` wrap), for every state,
noise draw and step duration. -/
theorem c1_amended (lat lon hdg spd noise_h noise_s step_hours : ℝ) :
    -90 ≤ (mcStepProj lat lon hdg spd noise_h noise_s step_hours).lat ∧
    (mcStepProj lat lon hdg spd noise_h noise_s step_hours).lat ≤ 90 ∧
    -180 ≤ (mcStepProj lat lon hdg spd noise_h noise_s step_hours).lon ∧
    (mcStepProj lat lon hdg spd noise_h noise_s step_hours).lon < 180 := by
  exact ⟨(deg_arcsin_bounds _).1, (deg_arcsin_bounds _).2,
    (wrap_lon_bounds _).1, (wrap_lon_bounds _).2⟩

/-- C1, counterexample: one simulation step taken from the navigable
equator point `(0°, 179.73°)` heading due east at 10 knots (zero
heading noise, unit speed factor, 1-hour step, January drift) produces
a longitude strictly greater than 180°: the eastward drift `cur_x` is
added *after* the longitude has been wrapped into `[-180, 180)`, so the
published position violates the coordinate invariant.  The resulting
point is still accepted by `_is_water`, so it survives into the
aggregated paths. -/
theorem c1_counterexample :
    is_water_prediction 0 179.73 ∧
    180 < (mcStep 0 179.73 90 10 0 1 1 1).lon ∧
    is_water_prediction (mcStep 0 179.73 90 10 0 1 1 1).lat
      (mcStep 0 179.73 90 10 0 1 1 1).lon := by
  have hπ3 : (3 : ℝ) < Real.pi := Real.pi_gt_three
  have hπ315 : Real.pi < 3.15 := Real.pi_lt_d2
  have hπ := Real.pi_pos
  have hD_lb : (0.166 : ℝ) < deg (18.52 / 6371) := by
    unfold deg
    rw [lt_div_iff₀ hπ]
    nlinarith
  have hD_ub : deg (18.52 / 6371) < 0.175 := by
    unfold deg
    rw [div_lt_iff₀ hπ]
    nlinarith
  have h90 : realMod (90 : ℝ) 360 = 90 :=
    realMod_eq_self (by norm_num) (by norm_num) (by norm_num)
  have hδ : min MAX_SPEED_KNOTS (max MIN_SPEED_KNOTS (10 : ℝ)) *
      KNOTS_TO_KMH / EARTH_RADIUS_KM = 18.52 / 6371 := by
    unfold MAX_SPEED_KNOTS MIN_SPEED_KNOTS KNOTS_TO_KMH EARTH_RADIUS_KM
    norm_num
  have hIoc : (18.52 / 6371 : ℝ) ∈ Set.Ioc (-Real.pi) Real.pi := by
    constructor
    · have : (0 : ℝ) < 18.52 / 6371 := by norm_num
      linarith
    · have : (18.52 / 6371 : ℝ) < 1 := by norm_num
      linarith
  have hproj : (mcStepProj 0 179.73 90 10 0 1 1).lon
      = 179.73 + deg (18.52 / 6371) := by
    simp only [mcStepProj, h90, hδ, rad_zero, rad_ninety, Real.sin_zero,
      Real.cos_zero, Real.sin_pi_div_two, Real.cos_pi_div_two, zero_mul,
      mul_zero, one_mul, mul_one, add_zero, zero_add, sub_zero,
      Real.arcsin_zero]
    rw [arctan2_cos_sin hIoc]
    rw [show deg (rad 179.73 + 18.52 / 6371)
        = 179.73 + deg (18.52 / 6371) by unfold deg rad; field_simp; ring]
    rw [show (179.73 : ℝ) + deg (18.52 / 6371) + 540
        = 719.73 + deg (18.52 / 6371) by ring]
    rw [realMod_eq_sub (by norm_num) (by linarith) (by linarith)]
    ring
  have hstep : (mcStep 0 179.73 90 10 0 1 1 1).lon
      = (mcStepProj 0 179.73 90 10 0 1 1).lon +
        (calculate_current_drift 0 179.73 1).1 * 1 := rfl
  have hlon : 180 < (mcStep 0 179.73 90 10 0 1 1 1).lon := by
    rw [hstep, hproj, drift_at_equator]
    norm_num
    linarith
  have hlat : (mcStep 0 179.73 90 10 0 1 1 1).lat = 0 := by
    have hstepLat : (mcStep 0 179.73 90 10 0 1 1 1).lat
        = (mcStepProj 0 179.73 90 10 0 1 1).lat +
          (calculate_current_drift 0 179.73 1).2 * 1 := rfl
    have hprojLat : (mcStepProj 0 179.73 90 10 0 1 1).lat = 0 := by
      simp only [mcStepProj, h90, hδ, rad_zero, rad_ninety, Real.sin_zero,
        Real.cos_zero, Real.sin_pi_div_two, Real.cos_pi_div_two, zero_mul,
        mul_zero, one_mul, mul_one, add_zero, zero_add, sub_zero,
        Real.arcsin_zero, deg_zero]
    rw [hstepLat, hprojLat, drift_at_equator]
    norm_num
  refine ⟨?_, hlon, ?_⟩
  · rw [is_water_prediction_iff]
    right; right
    norm_num
  · rw [hlat, is_water_prediction_iff]
    right; right
    rintro (⟨-, h2, -, -⟩ | ⟨-, h2, -, -⟩ | ⟨-, h2, -, -⟩ | ⟨-, h2, -, -⟩ |
      ⟨-, h2, -, -⟩) <;> linarith

theorem rad_sub (a b : ℝ) : rad (a - b) = rad a - rad b := by
  unfold rad; ring

theorem sin_half_sq (x : ℝ) : Real.sin (x / 2) ^ 2 = (1 - Real.cos x) / 2 := by
  have hB := Real.cos_two_mul (x / 2)
  rw [show 2 * (x / 2) = x by ring] at hB
  have hA := Real.sin_sq_add_cos_sq (x / 2)
  linear_combination hA + hB / 2

theorem cos_half_sq (x : ℝ) : Real.cos (x / 2) ^ 2 = (1 + Real.cos x) / 2 := by
  have hB := Real.cos_two_mul (x / 2)
  rw [show 2 * (x / 2) = x by ring] at hB
  linear_combination (-1 / 2 : ℝ) * hB

/-! ## C9 — `move_point` round trip and longitude normalization -/

set_option maxHeartbeats 1000000 in
/-- C9: for every start position with `|lat| < 90`, every bearing, and
every non-negative distance `d` small enough that the destination stays
short of the poles (`rad |lat| + d/R < π/2`), `move_point` returns a
longitude normalized into `[-180, 180)` and the haversine distance from
the start to the destination is *exactly* `d` (in exact real
arithmetic; the float tolerance of the claim is subsumed). -/
theorem c9_destination_roundtrip (lat lon bearing d : ℝ)
    (hd : 0 ≤ d)
    (hrange : rad |lat| + d / EARTH_RADIUS_KM < Real.pi / 2) :
    (-180 ≤ (move_point lat lon bearing d).2 ∧
      (move_point lat lon bearing d).2 < 180) ∧
    haversine_distance lat lon (move_point lat lon bearing d).1
      (move_point lat lon bearing d).2 = d := by
  have hπ := Real.pi_pos
  have hER : (0 : ℝ) < EARTH_RADIUS_KM := by unfold EARTH_RADIUS_KM; norm_num
  -- the two components of `move_point`, by definitional unfolding
  have hmp1 : (move_point lat lon bearing d).1
      = deg (Real.arcsin (Real.sin (rad lat) * Real.cos (d / EARTH_RADIUS_KM) +
          Real.cos (rad lat) * Real.sin (d / EARTH_RADIUS_KM) *
            Real.cos (rad bearing))) := rfl
  have hmp2 : (move_point lat lon bearing d).2
      = realMod (deg (rad lon + arctan2
          (Real.sin (rad bearing) * Real.sin (d / EARTH_RADIUS_KM) *
            Real.cos (rad lat))
          (Real.cos (d / EARTH_RADIUS_KM) - Real.sin (rad lat) *
            Real.sin (Real.arcsin (Real.sin (rad lat) *
              Real.cos (d / EARTH_RADIUS_KM) +
              Real.cos (rad lat) * Real.sin (d / EARTH_RADIUS_KM) *
                Real.cos (rad bearing))))) + 180) 360 - 180 := rfl
  set φ1 := rad lat with hφ1def
  set θ := rad bearing with hθdef
  set δ := d / EARTH_RADIUS_KM with hδdef
  have habs : |φ1| = rad |lat| := by
    rw [hφ1def]
    unfold rad
    rw [abs_div, abs_mul, abs_of_pos hπ]
    norm_num
  have hrange' : |φ1| + δ < Real.pi / 2 := by
    rw [habs, hδdef]
    exact hrange
  have hδ0 : 0 ≤ δ := by
    rw [hδdef]
    positivity
  have hφ1abs : |φ1| < Real.pi / 2 := by linarith
  have hδlt : δ < Real.pi / 2 := by
    have := abs_nonneg φ1
    linarith
  have hφ1mem := abs_lt.mp hφ1abs
  have hcosφ1 : 0 < Real.cos φ1 :=
    Real.cos_pos_of_mem_Ioo ⟨by linarith [hφ1mem.1], by linarith [hφ1mem.2]⟩
  have hcosδ : 0 < Real.cos δ :=
    Real.cos_pos_of_mem_Ioo ⟨by linarith, hδlt⟩
  have hsinδ : 0 ≤ Real.sin δ :=
    Real.sin_nonneg_of_nonneg_of_le_pi hδ0 (by linarith)
  set s2 := Real.sin φ1 * Real.cos δ + Real.cos φ1 * Real.sin δ * Real.cos θ
    with hs2def
  have hsinabs : |Real.sin φ1| = Real.sin |φ1| := by
    rcases abs_cases φ1 with ⟨h1, h2⟩ | ⟨h1, h2⟩
    · rw [h1, abs_of_nonneg (Real.sin_nonneg_of_nonneg_of_le_pi h2 (by linarith))]
    · rw [h1, Real.sin_neg,
        abs_of_nonpos (Real.sin_nonpos_of_nonnpos_of_neg_pi_le (le_of_lt h2)
          (by linarith))]
  have hs2abs : |s2| < 1 := by
    have h1 : |s2| ≤ |Real.sin φ1| * Real.cos δ +
        Real.cos φ1 * Real.sin δ * |Real.cos θ| := by
      calc |s2| ≤ |Real.sin φ1 * Real.cos δ| +
          |Real.cos φ1 * Real.sin δ * Real.cos θ| := abs_add _ _
      _ = |Real.sin φ1| * Real.cos δ +
          Real.cos φ1 * Real.sin δ * |Real.cos θ| := by
          rw [abs_mul, abs_mul, abs_mul, abs_of_pos hcosδ, abs_of_pos hcosφ1,
            abs_of_nonneg hsinδ]
    have h2 : Real.cos φ1 * Real.sin δ * |Real.cos θ| ≤
        Real.cos φ1 * Real.sin δ := by
      have hc1 : |Real.cos θ| ≤ 1 := Real.abs_cos_le_one θ
      have hnn : 0 ≤ Real.cos φ1 * Real.sin δ :=
        mul_nonneg (le_of_lt hcosφ1) hsinδ
      nlinarith
    have h3 : |Real.sin φ1| * Real.cos δ + Real.cos φ1 * Real.sin δ =
        Real.sin (|φ1| + δ) := by
      rw [Real.sin_add, hsinabs, Real.cos_abs]
    have h4 : Real.sin (|φ1| + δ) < 1 := by
      have hmem1 : |φ1| + δ ∈ Set.Icc (-(Real.pi / 2)) (Real.pi / 2) := by
        constructor
        · have := abs_nonneg φ1
          linarith
        · linarith
      have hmem2 : Real.pi / 2 ∈ Set.Icc (-(Real.pi / 2)) (Real.pi / 2) := by
        constructor <;> linarith
      have := Real.strictMonoOn_sin hmem1 hmem2 hrange'
      rwa [Real.sin_pi_div_two] at this
    linarith
  have hs2mem := abs_lt.mp hs2abs
  have hsinφ2 : Real.sin (Real.arcsin s2) = s2 :=
    Real.sin_arcsin (le_of_lt hs2mem.1) (le_of_lt hs2mem.2)
  have hs2sq : s2 ^ 2 < 1 := (sq_lt_one_iff_abs_lt_one s2).mpr hs2abs
  have hcosφ2val : Real.cos (Real.arcsin s2) = Real.sqrt (1 - s2 ^ 2) :=
    Real.cos_arcsin s2
  have hcosφ2 : 0 < Real.cos (Real.arcsin s2) := by
    rw [hcosφ2val]
    exact Real.sqrt_pos.mpr (by linarith)
  rw [hsinφ2] at hmp2
  set φ2 := Real.arcsin s2 with hφ2def
  set u := Real.sin θ * Real.sin δ * Real.cos φ1 with hudef
  set v := Real.cos δ - Real.sin φ1 * s2 with hvdef
  have hcos2 : Real.cos φ2 ^ 2 = 1 - s2 ^ 2 := by
    rw [hcosφ2val, Real.sq_sqrt (by linarith)]
  have hkey : u ^ 2 + v ^ 2 = (Real.cos φ1 * Real.cos φ2) ^ 2 := by
    have hA := Real.sin_sq_add_cos_sq φ1
    have hB := Real.sin_sq_add_cos_sq δ
    have hC := Real.sin_sq_add_cos_sq θ
    rw [hudef, hvdef, hs2def]
    rw [show (Real.cos φ1 * Real.cos φ2) ^ 2 = Real.cos φ1 ^ 2 * Real.cos φ2 ^ 2
      by ring, hcos2, hs2def]
    linear_combination
      ((Real.sin φ1 * Real.cos δ + Real.cos φ1 * Real.sin δ * Real.cos θ) ^ 2 -
        Real.cos δ ^ 2) * hA +
      Real.cos φ1 ^ 2 * Real.sin δ ^ 2 * hC + Real.cos φ1 ^ 2 * hB
  have hprodpos : 0 < Real.cos φ1 * Real.cos φ2 := mul_pos hcosφ1 hcosφ2
  have hru : Real.sqrt (v ^ 2 + u ^ 2) = Real.cos φ1 * Real.cos φ2 := by
    rw [show v ^ 2 + u ^ 2 = (Real.cos φ1 * Real.cos φ2) ^ 2 by linarith [hkey]]
    exact Real.sqrt_sq (le_of_lt hprodpos)
  have hvu0 : ¬(v = 0 ∧ u = 0) := by
    rintro ⟨hv0, hu0⟩
    rw [hv0, hu0] at hkey
    nlinarith
  have hcosL : Real.cos (arctan2 u v) = v / (Real.cos φ1 * Real.cos φ2) := by
    rw [arctan2_cos u v hvu0, hru]
  have hprodL : Real.cos φ1 * Real.cos φ2 * Real.cos (arctan2 u v) = v := by
    rw [hcosL]
    field_simp
  constructor
  · rw [hmp2]
    exact ⟨(wrap_lon_bounds _).1, (wrap_lon_bounds _).2⟩
  · -- the distance computation
    rw [hmp1, hmp2]
    have hlonval : realMod (deg (rad lon + arctan2 u v) + 180) 360 - 180
        = deg (rad lon + arctan2 u v) -
          360 * ⌊(deg (rad lon + arctan2 u v) + 180) / 360⌋ := by
      unfold realMod
      ring
    rw [hlonval]
    set k : ℤ := ⌊(deg (rad lon + arctan2 u v) + 180) / 360⌋ with hkdef
    -- unfold the haversine formula and normalize its pieces
    show EARTH_RADIUS_KM * (2 * arctan2
      (Real.sqrt (Real.sin (rad (deg φ2 - lat) / 2) ^ 2 +
        Real.cos (rad lat) * Real.cos (rad (deg φ2)) *
        Real.sin (rad (deg (rad lon + arctan2 u v) - 360 * (k : ℝ) - lon) / 2) ^ 2))
      (Real.sqrt (1 - (Real.sin (rad (deg φ2 - lat) / 2) ^ 2 +
        Real.cos (rad lat) * Real.cos (rad (deg φ2)) *
        Real.sin (rad (deg (rad lon + arctan2 u v) - 360 * (k : ℝ) - lon) / 2) ^ 2)))) = d
    have e1 : rad (deg φ2 - lat) = φ2 - φ1 := by
      rw [rad_sub, rad_deg, hφ1def]
    have e2 : rad (deg φ2) = φ2 := rad_deg φ2
    have e3 : rad (deg (rad lon + arctan2 u v) - 360 * (k : ℝ) - lon)
        = arctan2 u v - (k : ℝ) * (2 * Real.pi) := by
      rw [rad_sub, rad_sub, rad_deg]
      unfold rad
      ring
    rw [e1, e2, e3, ← hφ1def]
    rw [sin_half_sq, sin_half_sq, Real.cos_sub_int_mul_two_pi, Real.cos_sub]
    have ha : (1 - (Real.cos φ2 * Real.cos φ1 + Real.sin φ2 * Real.sin φ1)) / 2 +
        Real.cos φ1 * Real.cos φ2 * ((1 - Real.cos (arctan2 u v)) / 2)
        = (1 - Real.cos δ) / 2 := by
      rw [hsinφ2]
      linear_combination (-1 / 2 : ℝ) * hprodL + (-1 / 2 : ℝ) * hvdef
    rw [ha]
    have hs : Real.sqrt ((1 - Real.cos δ) / 2) = Real.sin (δ / 2) := by
      rw [← sin_half_sq]
      exact Real.sqrt_sq (Real.sin_nonneg_of_nonneg_of_le_pi (by linarith)
        (by linarith))
    have hc : Real.sqrt (1 - (1 - Real.cos δ) / 2) = Real.cos (δ / 2) := by
      rw [show 1 - (1 - Real.cos δ) / 2 = (1 + Real.cos δ) / 2 by ring,
        ← cos_half_sq]
      refine Real.sqrt_sq (le_of_lt ?_)
      exact Real.cos_pos_of_mem_Ioo ⟨by linarith, by linarith⟩
    rw [hs, hc, arctan2_cos_sin ⟨by linarith, by linarith⟩]
    rw [hδdef]
    field_simp
    ring

/-- C9, witness at the equator: `lat = 0`, `lon = 0`, bearing 90°,
distance 1 km. -/
theorem c9_witness :
    ((0 : ℝ) ≤ 1 ∧ rad |(0 : ℝ)| + 1 / EARTH_RADIUS_KM < Real.pi / 2) ∧
    ((-180 ≤ (move_point 0 0 90 1).2 ∧ (move_point 0 0 90 1).2 < 180) ∧
     haversine_distance 0 0 (move_point 0 0 90 1).1 (move_point 0 0 90 1).2 = 1) := by
  have hr : rad |(0 : ℝ)| + 1 / EARTH_RADIUS_KM < Real.pi / 2 := by
    rw [abs_zero, rad_zero]
    unfold EARTH_RADIUS_KM
    have := Real.pi_gt_three
    rw [zero_add]
    nlinarith
  exact ⟨⟨by norm_num, hr⟩, c9_destination_roundtrip 0 0 90 1 (by norm_num) hr⟩

end SubSim
